import Mathlib

/-!
Shallow embedding of the wedding-quiz session server.

The data model follows the interfaces in the shared types module
(`GameState`, `Question`, `Player`, `GameData`), and the operational
definitions follow `server.ts`: the question bank `QUESTIONS`, the scoring
pass `calculateScores`, the socket handlers (`join`, `submitAnswer`,
`hostStartGame`, `hostNextQuestion`, `hostResetGame`, `disconnect`),
the phase helper `startReadingPhase`, and the timer `startTimer`/tick.

JavaScript records keyed by socket id are modelled as lists whose
elements carry their key (`Player.id`, respectively the first component
of a scratch entry); the record invariant "one entry per key" appears in
theorems as a `Nodup` hypothesis on the mapped ids.  Mutation of shared
player objects is rendered as functional update written back by id.
Handlers return the new server state together with the list of emitted
events, so "no broadcast" is expressed as an empty event list.
-/

namespace WeddingQuiz

/-- The `GameState` union type of the shared types module. -/
inductive GameState where
  | LOBBY
  | READING
  | QUESTION
  | REVEAL
  | LEADERBOARD
  | FINAL_RESULTS
deriving DecidableEq

/-- The `Question` interface. -/
structure Question where
  id : Nat
  text : String
  options : List String
  correctAnswer : Nat
deriving DecidableEq

/-- The `Player` interface.  `score`, `lastScoreChange` are non-negative
integers (the server only ever adds non-negative awards or resets to 0). -/
structure Player where
  id : String
  name : String
  avatar : Option String
  score : Nat
  lastScoreChange : Nat
  currentAnswer : Option Nat
  hasChangedAnswer : Bool
  answerTime : Option Nat
  isHost : Bool
deriving DecidableEq

/-- The `GameData` interface (the broadcast snapshot). -/
structure GameData where
  state : GameState
  currentQuestionIndex : Nat
  questions : List Question
  players : List Player
  timer : Int
deriving DecidableEq

/-- Which completion callback the single active interval would run:
the three nested `startTimer` callbacks of `startReadingPhase`. -/
inductive PendingPhase where
  | toQuestion
  | toReveal
  | toLeaderboard
deriving DecidableEq

/-- Whole server state: the broadcast `gameState`, the scoring scratch
record `playerFirstAnswers`, and the single active interval (if any). -/
structure ServerState where
  game : GameData
  firstAnswers : List (String × Nat)
  activeTimer : Option PendingPhase
deriving DecidableEq

/-- Server-to-client events: `io.emit('gameUpdate', …)` and the private
`io.to(id).emit('answerFeedback', …)`. -/
inductive ServerEvent where
  | gameUpdate (snapshot : GameData)
  | answerFeedback (target : String) (correct : Bool) (points : Nat) (reason : String)
deriving DecidableEq

/-- The fixed compiled-in question bank `QUESTIONS` of `server.ts`. -/
def QUESTIONS : List Question :=
  [ { id := 1
      text := "เจ้าบ่าวและเจ้าสาวเจอกันครั้งแรกที่ไหน?"
      options := ["มหาวิทยาลัย", "ที่ทำงาน", "ร้านกาแฟ", "งานแต่งเพื่อน"]
      correctAnswer := 0 },
    { id := 2
      text := "ใครเป็นคนสารภาพรักก่อน?"
      options := ["เจ้าบ่าว", "เจ้าสาว", "พร้อมกัน", "ไม่มีใครสารภาพ"]
      correctAnswer := 0 },
    { id := 3
      text := "เมนูโปรดที่ทั้งคู่ชอบทานด้วยกันคืออะไร?"
      options := ["ชาบู", "ส้มตำ", "พิซซ่า", "อาหารญี่ปุ่น"]
      correctAnswer := 1 },
    { id := 4
      text := "ทริปแรกที่ไปเที่ยวด้วยกันคือที่ไหน?"
      options := ["เชียงใหม่", "ภูเก็ต", "ญี่ปุ่น", "เกาหลี"]
      correctAnswer := 2 },
    { id := 5
      text := "เจ้าบ่าวกลัวอะไรมากที่สุด?"
      options := ["แมลงสาบ", "ความสูง", "ผี", "เมีย"]
      correctAnswer := 3 } ]

/-- The initial `gameState` value of `server.ts`. -/
def initialGameData : GameData :=
  { state := GameState.LOBBY
    currentQuestionIndex := 0
    questions := QUESTIONS
    players := []
    timer := 0 }

/-- Award reason: first five correct without changing. -/
def REASON_FIRST5 : String := "5 คนแรกที่ตอบถูกและไม่เปลี่ยนคำตอบ!"

/-- Award reason: correct without changing, beyond the first five. -/
def REASON_UNCHANGED : String := "ตอบถูกและไม่เปลี่ยนคำตอบ"

/-- Award reason: changed to the correct answer in the final 3 seconds. -/
def REASON_CHANGED_LATE : String := "เปลี่ยนมาตอบถูกในช่วง 3 วินาทีสุดท้าย"

/-- Award reason: changed to the correct answer. -/
def REASON_CHANGED : String := "เปลี่ยนมาตอบถูก"

/-- Award reason: degenerate correct branch. -/
def REASON_CORRECT : String := "ตอบถูก"

/-- Award reason: incorrect answer. -/
def REASON_INCORRECT : String := "คำตอบไม่ถูกต้อง"

/-- Record lookup `gameState.players[sid]` (first entry with that id;
under the record invariant there is at most one). -/
def getPlayer (ps : List Player) (sid : String) : Option Player :=
  ps.find? (fun p => p.id == sid)

/-- Record assignment `gameState.players[sid] = p` (`p.id = sid`):
replaces the existing entry in place, else appends. -/
def setPlayer (ps : List Player) (p : Player) : List Player :=
  if ps.any (fun q => q.id == p.id) then
    ps.map (fun q => if q.id == p.id then p else q)
  else
    ps ++ [p]

/-- Scratch lookup `playerFirstAnswers[sid]` (`none` = key absent,
i.e. the JavaScript `undefined`). -/
def lookupFA (fa : List (String × Nat)) (sid : String) : Option Nat :=
  (fa.find? (fun e => e.1 == sid)).map (fun e => e.2)

/-- Sort key of the comparator `(a.answerTime || Infinity)`:
`none` stands for `Infinity` (both `null` and the falsy `0` give it). -/
def sortKey (p : Player) : Option Nat :=
  match p.answerTime with
  | none => none
  | some t => if t = 0 then none else some t

/-- Strict order on sort keys, `none` greatest (the comparator's
`keyA - keyB < 0`; `Infinity - Infinity` is `NaN`, treated as equal). -/
def keyLT : Option Nat → Option Nat → Bool
  | some a, some b => a < b
  | some _, none => true
  | _, _ => false

/-- Stable insertion of a player into a list sorted by `sortKey`. -/
def insertPlayer (p : Player) : List Player → List Player
  | [] => [p]
  | q :: qs => if keyLT (sortKey q) (sortKey p) then q :: insertPlayer p qs else p :: q :: qs

/-- The stable ascending sort `.sort((a, b) => (a.answerTime || Infinity) - (b.answerTime || Infinity))`. -/
def sortPlayers : List Player → List Player
  | [] => []
  | p :: ps => insertPlayer p (sortPlayers ps)

/-- The question the scoring pass reads:
`QUESTIONS[gameState.currentQuestionIndex].correctAnswer`.  An
out-of-range index is undefined behaviour in the source (a crash);
the default is never reached under the controller's index invariant. -/
def currentCorrectAnswer (g : GameData) : Nat :=
  (QUESTIONS.getD g.currentQuestionIndex
    { id := 0, text := "", options := [], correctAnswer := 0 }).correctAnswer

/-- Points and reason for one player in `calculateScores`, given the
value of the running `correctCount` when the player is processed. -/
def awardPoints (ca : Nat) (timer : Int) (fa : List (String × Nat))
    (correctCount : Nat) (p : Player) : Nat × String :=
  if p.currentAnswer = some ca then
    if p.hasChangedAnswer = false ∧ lookupFA fa p.id = some ca then
      if correctCount < 5 then (20, REASON_FIRST5) else (10, REASON_UNCHANGED)
    else if p.hasChangedAnswer = true then
      if timer ≤ 3 then (5, REASON_CHANGED_LATE) else (10, REASON_CHANGED)
    else (10, REASON_CORRECT)
  else (0, REASON_INCORRECT)

/-- The condition under which `calculateScores` increments
`correctCount`: correct final answer, never changed, and the
scratch-recorded first answer equals the correct index. -/
def tierQualified (ca : Nat) (fa : List (String × Nat)) (p : Player) : Bool :=
  decide (p.currentAnswer = some ca) && !p.hasChangedAnswer &&
    decide (lookupFA fa p.id = some ca)

/-- The `players.forEach` loop of `calculateScores`, threading
`correctCount`: returns the updated players (in processed order) and
the emitted `answerFeedback` events (in processed order). -/
def scorePass (ca : Nat) (timer : Int) (fa : List (String × Nat)) :
    Nat → List Player → List Player × List ServerEvent
  | _, [] => ([], [])
  | correctCount, p :: ps =>
    let aw := awardPoints ca timer fa correctCount p
    let newCount := if tierQualified ca fa p then correctCount + 1 else correctCount
    let rest := scorePass ca timer fa newCount ps
    ({ p with lastScoreChange := aw.1, score := p.score + aw.1 } :: rest.1,
     ServerEvent.answerFeedback p.id (decide (p.currentAnswer = some ca)) aw.1 aw.2 :: rest.2)

/-- The non-host players in the order the scoring pass processes them. -/
def sortedNonHost (st : ServerState) : List Player :=
  sortPlayers (st.game.players.filter (fun p => !p.isHost))

/-- The scoring pass's per-player output on the current state. -/
def scoringOutput (st : ServerState) : List Player × List ServerEvent :=
  scorePass (currentCorrectAnswer st.game) st.game.timer st.firstAnswers 0 (sortedNonHost st)

/-- Write-back of the in-place mutation of the shared player objects:
hosts are untouched (they were filtered out), non-hosts are replaced by
their scored version, found by id. -/
def applyScores (scored : List Player) (p : Player) : Player :=
  if p.isHost then p
  else
    match scored.find? (fun q => q.id == p.id) with
    | some q => q
    | none => p

/-- `calculateScores` of `server.ts`. -/
def calculateScores (st : ServerState) : ServerState × List ServerEvent :=
  let scored := scoringOutput st
  ({ st with game := { st.game with players := st.game.players.map (applyScores scored.1) } },
   scored.2)

/-- `broadcastUpdate()` on a given state. -/
def broadcastOf (st : ServerState) : ServerEvent :=
  ServerEvent.gameUpdate st.game

/-- `startTimer(duration, onComplete)`: replaces the active interval
(implicit cancellation), sets the countdown and broadcasts once. -/
def startTimer (st : ServerState) (duration : Int) (pending : PendingPhase) :
    ServerState × List ServerEvent :=
  let st2 := { st with game := { st.game with timer := duration }, activeTimer := some pending }
  (st2, [broadcastOf st2])

/-- The per-player reset performed when entering the reading phase. -/
def resetForReading (p : Player) : Player :=
  { p with currentAnswer := none, hasChangedAnswer := false, lastScoreChange := 0 }

/-- `startReadingPhase()` of `server.ts`. -/
def startReadingPhase (st : ServerState) : ServerState × List ServerEvent :=
  let st1 := { st with
    game := { st.game with
      state := GameState.READING
      players := st.game.players.map resetForReading }
    firstAnswers := [] }
  startTimer st1 5 PendingPhase.toQuestion

/-- The `join` handler: replaces this connection's player record. -/
def handleJoin (st : ServerState) (sid name : String) (isHost : Bool)
    (avatar : Option String) : ServerState × List ServerEvent :=
  let p : Player :=
    { id := sid, name := name, avatar := avatar, score := 0, lastScoreChange := 0,
      currentAnswer := none, hasChangedAnswer := false, answerTime := none, isHost := isHost }
  let st2 := { st with game := { st.game with players := setPlayer st.game.players p } }
  (st2, [broadcastOf st2])

/-- Update of the submitting player's record in `submitAnswer`; the
changed-flag is set exactly when a scratch first answer already exists. -/
def submitUpdate (sid : String) (answerIndex now : Nat) (fa : List (String × Nat))
    (p : Player) : Player :=
  if p.id == sid then
    { p with
      hasChangedAnswer := if lookupFA fa sid = none then p.hasChangedAnswer else true
      currentAnswer := some answerIndex
      answerTime := some now }
  else p

/-- The `submitAnswer` handler (`now` is the `Date.now()` value). -/
def handleSubmitAnswer (st : ServerState) (sid : String) (answerIndex now : Nat) :
    ServerState × List ServerEvent :=
  match getPlayer st.game.players sid with
  | none => (st, [])
  | some _ =>
    if st.game.state = GameState.QUESTION then
      let fa2 := if lookupFA st.firstAnswers sid = none
                 then st.firstAnswers ++ [(sid, answerIndex)]
                 else st.firstAnswers
      let st2 := { st with
        game := { st.game with
          players := st.game.players.map (submitUpdate sid answerIndex now st.firstAnswers) }
        firstAnswers := fa2 }
      (st2, [broadcastOf st2])
    else (st, [])

/-- The `hostStartGame` handler: host-gated; no phase check appears in
the source. -/
def handleHostStartGame (st : ServerState) (sid : String) :
    ServerState × List ServerEvent :=
  match getPlayer st.game.players sid with
  | none => (st, [])
  | some p =>
    if p.isHost then
      startReadingPhase { st with
        game := { st.game with
          currentQuestionIndex := 0
          players := st.game.players.map (fun q => { q with score := 0, lastScoreChange := 0 }) } }
    else (st, [])

/-- The `hostNextQuestion` handler: host-gated; no phase check appears
in the source. -/
def handleHostNextQuestion (st : ServerState) (sid : String) :
    ServerState × List ServerEvent :=
  match getPlayer st.game.players sid with
  | none => (st, [])
  | some p =>
    if p.isHost then
      if st.game.currentQuestionIndex < QUESTIONS.length - 1 then
        startReadingPhase { st with
          game := { st.game with currentQuestionIndex := st.game.currentQuestionIndex + 1 } }
      else
        let st2 := { st with game := { st.game with state := GameState.FINAL_RESULTS } }
        (st2, [broadcastOf st2])
    else (st, [])

/-- The `hostResetGame` handler: host-gated. -/
def handleHostResetGame (st : ServerState) (sid : String) :
    ServerState × List ServerEvent :=
  match getPlayer st.game.players sid with
  | none => (st, [])
  | some p =>
    if p.isHost then
      let st2 := { st with
        game := { st.game with
          state := GameState.LOBBY
          currentQuestionIndex := 0
          players := st.game.players.map (fun q =>
            { q with score := 0, lastScoreChange := 0,
                     currentAnswer := none, hasChangedAnswer := false }) } }
      (st2, [broadcastOf st2])
    else (st, [])

/-- The `disconnect` handler: deletes the player record and its scratch
entry, then broadcasts. -/
def handleDisconnect (st : ServerState) (sid : String) :
    ServerState × List ServerEvent :=
  let st2 := { st with
    game := { st.game with players := st.game.players.filter (fun p => !(p.id == sid)) }
    firstAnswers := st.firstAnswers.filter (fun e => !(e.1 == sid)) }
  (st2, [broadcastOf st2])

/-- The completion callbacks of the three nested timers in
`startReadingPhase`. -/
def onTimerComplete (st : ServerState) (k : PendingPhase) :
    ServerState × List ServerEvent :=
  match k with
  | PendingPhase.toQuestion =>
    startTimer { st with game := { st.game with state := GameState.QUESTION } } 15
      PendingPhase.toReveal
  | PendingPhase.toReveal =>
    let out := calculateScores st
    let st2 := { out.1 with game := { out.1.game with state := GameState.REVEAL } }
    let out3 := startTimer st2 5 PendingPhase.toLeaderboard
    (out3.1, out.2 ++ [broadcastOf st2] ++ out3.2)
  | PendingPhase.toLeaderboard =>
    let st2 := { st with game := { st.game with state := GameState.LEADERBOARD } }
    (st2, [broadcastOf st2])

/-- One interval tick: decrement; at zero, clear the interval and run
the completion callback, otherwise broadcast. -/
def tick (st : ServerState) : ServerState × List ServerEvent :=
  match st.activeTimer with
  | none => (st, [])
  | some k =>
    let st1 := { st with game := { st.game with timer := st.game.timer - 1 } }
    if st1.game.timer ≤ 0 then
      onTimerComplete { st1 with activeTimer := none } k
    else
      (st1, [broadcastOf st1])

/-! ### Helper lemmas on record lookup and id-preserving maps -/

theorem applyScores_id (scored : List Player) (p : Player) :
    (applyScores scored p).id = p.id := by
  unfold applyScores
  by_cases h : p.isHost = true
  · simp [h]
  · simp only [h, if_false, Bool.false_eq_true]
    cases hf : scored.find? (fun q => q.id == p.id) with
    | none => simp
    | some q =>
      have hq := List.find?_some hf
      simp only [beq_iff_eq] at hq
      simp [hq]

theorem submitUpdate_id (sid : String) (a now : Nat) (fa : List (String × Nat)) (p : Player) :
    (submitUpdate sid a now fa p).id = p.id := by
  unfold submitUpdate
  by_cases h : (p.id == sid) = true <;> simp [h]

theorem find?_map_of_id (g : Player → Player) (hg : ∀ q, (g q).id = q.id) (sid : String)
    (l : List Player) :
    (l.map g).find? (fun q => q.id == sid) = (l.find? (fun q => q.id == sid)).map g := by
  rw [List.find?_map]
  have he : ((fun q : Player => q.id == sid) ∘ g) = (fun q : Player => q.id == sid) := by
    funext q
    simp [Function.comp, hg]
  rw [he]

theorem find?_id_eq_of_nodup (l : List Player) (hnd : (l.map (fun q => q.id)).Nodup) :
    ∀ p ∈ l, l.find? (fun q => q.id == p.id) = some p := by
  induction l with
  | nil => intro p hp; exact absurd hp (List.not_mem_nil p)
  | cons q qs ih =>
    intro p hp
    simp only [List.map_cons, List.nodup_cons] at hnd
    rcases List.mem_cons.mp hp with rfl | hmem
    · exact List.find?_cons_of_pos _ (by simp)
    · have hq : q.id ≠ p.id := by
        intro he
        exact hnd.1 (he ▸ List.mem_map_of_mem (fun r => r.id) hmem)
      rw [List.find?_cons_of_neg _ (by simp [hq])]
      exact ih hnd.2 p hmem

theorem countP_id_eq_one (l : List Player) (hnd : (l.map (fun q => q.id)).Nodup) :
    ∀ p ∈ l, l.countP (fun q => q.id == p.id) = 1 := by
  induction l with
  | nil => intro p hp; exact absurd hp (List.not_mem_nil p)
  | cons q qs ih =>
    intro p hp
    simp only [List.map_cons, List.nodup_cons] at hnd
    rcases List.mem_cons.mp hp with rfl | hmem
    · have hz : qs.countP (fun q => q.id == p.id) = 0 := by
        rw [List.countP_eq_zero]
        intro r hr
        simp only [beq_iff_eq]
        intro he
        exact hnd.1 (he ▸ List.mem_map_of_mem (fun s => s.id) hr)
      simp [List.countP_cons, hz]
    · have hq : q.id ≠ p.id := by
        intro he
        exact hnd.1 (he ▸ List.mem_map_of_mem (fun r => r.id) hmem)
      simp [List.countP_cons, hq, ih hnd.2 p hmem]

theorem lookupFA_append (sid : String) (a : Nat) (fa : List (String × Nat))
    (h : lookupFA fa sid = none) : lookupFA (fa ++ [(sid, a)]) sid = some a := by
  induction fa with
  | nil => simp [lookupFA]
  | cons e fa ih =>
    unfold lookupFA at h ⊢
    cases he : (e.1 == sid) with
    | true =>
      have hf : List.find? (fun x => x.1 == sid) (e :: fa) = some e :=
        List.find?_cons_of_pos _ he
      rw [hf] at h
      simp at h
    | false =>
      have hf : List.find? (fun x => x.1 == sid) (e :: fa) = List.find? (fun x => x.1 == sid) fa :=
        List.find?_cons_of_neg _ (by simp [he])
      rw [hf] at h
      have hf2 : List.find? (fun x => x.1 == sid) (e :: (fa ++ [(sid, a)])) =
          List.find? (fun x => x.1 == sid) (fa ++ [(sid, a)]) :=
        List.find?_cons_of_neg _ (by simp [he])
      rw [List.cons_append, hf2]
      exact ih h

theorem find?_map_replace (p : Player) (ps : List Player)
    (h : ps.any (fun q => q.id == p.id) = true) :
    (ps.map (fun q => if q.id == p.id then p else q)).find? (fun q => q.id == p.id) = some p := by
  induction ps with
  | nil => simp at h
  | cons q qs ih =>
    cases hq : (q.id == p.id) with
    | true =>
      simp only [List.map_cons, hq, if_true]
      exact List.find?_cons_of_pos _ (by simp)
    | false =>
      simp only [List.map_cons, hq, Bool.false_eq_true, if_false]
      rw [List.find?_cons_of_neg _ (by simp [hq])]
      apply ih
      simpa [List.any_cons, hq] using h

theorem find?_append_right_self (p : Player) (ps : List Player)
    (h : ps.any (fun q => q.id == p.id) = false) :
    (ps ++ [p]).find? (fun q => q.id == p.id) = some p := by
  induction ps with
  | nil => simp
  | cons q qs ih =>
    simp only [List.any_cons, Bool.or_eq_false_iff] at h
    rw [List.cons_append, List.find?_cons_of_neg _ (by simp [h.1])]
    exact ih h.2

theorem getPlayer_setPlayer (ps : List Player) (p : Player) :
    getPlayer (setPlayer ps p) p.id = some p := by
  unfold getPlayer setPlayer
  by_cases h : ps.any (fun q => q.id == p.id) = true
  · rw [if_pos h]
    exact find?_map_replace p ps h
  · rw [if_neg h]
    refine find?_append_right_self p ps ?_
    revert h
    cases ps.any (fun q => q.id == p.id) <;> simp

/-! ### The sort used by the scoring pass: permutation and sortedness -/

theorem insertPlayer_perm (p : Player) :
    ∀ l : List Player, List.Perm (insertPlayer p l) (p :: l) := by
  intro l
  induction l with
  | nil => exact List.Perm.refl _
  | cons q qs ih =>
    unfold insertPlayer
    cases h : keyLT (sortKey q) (sortKey p) with
    | true =>
      simp only [if_true]
      exact (ih.cons q).trans (List.Perm.swap p q qs)
    | false => simp

theorem sortPlayers_perm : ∀ l : List Player, List.Perm (sortPlayers l) l := by
  intro l
  induction l with
  | nil => exact List.Perm.refl _
  | cons p ps ih => exact (insertPlayer_perm p (sortPlayers ps)).trans (ih.cons p)

theorem mem_insertPlayer {x p : Player} {l : List Player} (h : x ∈ insertPlayer p l) :
    x = p ∨ x ∈ l :=
  List.mem_cons.mp ((insertPlayer_perm p l).mem_iff.mp h)

theorem keyLT_asymm (a b : Option Nat) (h : keyLT a b = true) : keyLT b a = false := by
  cases a <;> cases b <;> simp [keyLT] at h ⊢ <;> omega

theorem keyLT_false_trans (a b c : Option Nat) (h1 : keyLT b a = false)
    (h2 : keyLT c b = false) : keyLT c a = false := by
  cases a <;> cases b <;> cases c <;> simp [keyLT] at h1 h2 ⊢ <;> omega

/-- The order the comparator establishes: the right element does not
strictly precede the left one. -/
def sortedRel (a b : Player) : Prop := keyLT (sortKey b) (sortKey a) = false

theorem pairwise_insertPlayer (p : Player) :
    ∀ l : List Player, l.Pairwise sortedRel → (insertPlayer p l).Pairwise sortedRel := by
  intro l
  induction l with
  | nil => intro _; simp [insertPlayer]
  | cons q qs ih =>
    intro hpw
    rw [List.pairwise_cons] at hpw
    unfold insertPlayer
    cases h : keyLT (sortKey q) (sortKey p) with
    | true =>
      simp only [if_true]
      rw [List.pairwise_cons]
      refine ⟨?_, ih hpw.2⟩
      intro x hx
      rcases mem_insertPlayer hx with rfl | hx2
      · exact keyLT_asymm _ _ h
      · exact hpw.1 x hx2
    | false =>
      simp only [Bool.false_eq_true, if_false]
      rw [List.pairwise_cons]
      refine ⟨?_, List.pairwise_cons.mpr hpw⟩
      intro x hx
      rcases List.mem_cons.mp hx with rfl | hx2
      · exact h
      · exact keyLT_false_trans _ _ _ h (hpw.1 x hx2)

theorem pairwise_sortPlayers : ∀ l : List Player, (sortPlayers l).Pairwise sortedRel := by
  intro l
  induction l with
  | nil => exact List.Pairwise.nil
  | cons p ps ih => exact pairwise_insertPlayer p (sortPlayers ps) ih

/-- Ascending submission timestamps, missing timestamps last: the order
the specification describes for the tiered award. -/
def tsOrd (a b : Player) : Prop :=
  match a.answerTime, b.answerTime with
  | some x, some y => x ≤ y
  | some _, none => True
  | none, some _ => False
  | none, none => True

theorem sortedRel_tsOrd {a b : Player} (ha : a.answerTime ≠ some 0)
    (hb : b.answerTime ≠ some 0) (h : sortedRel a b) : tsOrd a b := by
  unfold sortedRel sortKey keyLT at h
  unfold tsOrd
  cases hat : a.answerTime with
  | none =>
    cases hbt : b.answerTime with
    | none => trivial
    | some y =>
      have hy : y ≠ 0 := fun e => hb (by rw [hbt, e])
      rw [hat, hbt] at h
      simp [hy] at h
  | some x =>
    have hx : x ≠ 0 := fun e => ha (by rw [hat, e])
    cases hbt : b.answerTime with
    | none => trivial
    | some y =>
      have hy : y ≠ 0 := fun e => hb (by rw [hbt, e])
      rw [hat, hbt] at h
      simp [hx, hy] at h
      show x ≤ y
      omega

theorem mem_sortPlayers {x : Player} {l : List Player} (h : x ∈ sortPlayers l) : x ∈ l :=
  (sortPlayers_perm l).mem_iff.mp h

/-! ### Per-position and per-player behaviour of the scoring pass -/

theorem scorePass_getElem (ca : Nat) (timer : Int) (fa : List (String × Nat))
    (ps : List Player) :
    ∀ (c i : Nat) (p : Player), ps[i]? = some p →
      (scorePass ca timer fa c ps).1[i]? =
        some { p with
          lastScoreChange := (awardPoints ca timer fa (c + (ps.take i).countP (tierQualified ca fa)) p).1
          score := p.score + (awardPoints ca timer fa (c + (ps.take i).countP (tierQualified ca fa)) p).1 } ∧
      (scorePass ca timer fa c ps).2[i]? =
        some (ServerEvent.answerFeedback p.id (decide (p.currentAnswer = some ca))
          (awardPoints ca timer fa (c + (ps.take i).countP (tierQualified ca fa)) p).1
          (awardPoints ca timer fa (c + (ps.take i).countP (tierQualified ca fa)) p).2) := by
  induction ps with
  | nil => intro c i p h; simp at h
  | cons q qs ih =>
    intro c i p h
    cases i with
    | zero =>
      simp only [List.getElem?_cons_zero, Option.some.injEq] at h
      subst h
      simp [scorePass]
    | succ i =>
      simp only [List.getElem?_cons_succ] at h
      have harith : (if tierQualified ca fa q then c + 1 else c) +
          ((qs.take i).countP (tierQualified ca fa))
          = c + (((q :: qs).take (i + 1)).countP (tierQualified ca fa)) := by
        rw [List.take_succ_cons, List.countP_cons]
        by_cases hq : tierQualified ca fa q = true
        · simp only [hq, if_true]
          omega
        · simp only [hq, if_false]
          simp at hq
          simp [hq]
      have ihs := ih (if tierQualified ca fa q then c + 1 else c) i p h
      rw [harith] at ihs
      simpa [scorePass] using ihs

theorem scorePass_find (ca : Nat) (timer : Int) (fa : List (String × Nat))
    (ps : List Player) :
    ∀ (c : Nat) (p : Player), (ps.map (fun q => q.id)).Nodup → p ∈ ps →
      ∃ cc,
        (scorePass ca timer fa c ps).1.find? (fun q => q.id == p.id) =
          some { p with
            lastScoreChange := (awardPoints ca timer fa cc p).1
            score := p.score + (awardPoints ca timer fa cc p).1 } ∧
        ServerEvent.answerFeedback p.id (decide (p.currentAnswer = some ca))
          (awardPoints ca timer fa cc p).1 (awardPoints ca timer fa cc p).2
          ∈ (scorePass ca timer fa c ps).2 := by
  induction ps with
  | nil => intro c p _ hp; exact absurd hp (List.not_mem_nil p)
  | cons q qs ih =>
    intro c p hnd hp
    simp only [List.map_cons, List.nodup_cons] at hnd
    rcases List.mem_cons.mp hp with rfl | hmem
    · refine ⟨c, ?_, ?_⟩
      · simp only [scorePass]
        exact List.find?_cons_of_pos _ (by simp)
      · simp [scorePass]
    · have hq : q.id ≠ p.id := by
        intro he
        exact hnd.1 (he ▸ List.mem_map_of_mem (fun r => r.id) hmem)
      obtain ⟨cc, h1, h2⟩ := ih (if tierQualified ca fa q then c + 1 else c) p hnd.2 hmem
      refine ⟨cc, ?_, ?_⟩
      · simp only [scorePass]
        have hneg : List.find? (fun r => r.id == p.id)
            ({ q with
                lastScoreChange := (awardPoints ca timer fa c q).1
                score := q.score + (awardPoints ca timer fa c q).1 } ::
              (scorePass ca timer fa (if tierQualified ca fa q then c + 1 else c) qs).1) =
            List.find? (fun r => r.id == p.id)
              (scorePass ca timer fa (if tierQualified ca fa q then c + 1 else c) qs).1 :=
          List.find?_cons_of_neg _ (by simp [hq])
        exact hneg.trans h1
      · simp only [scorePass, List.mem_cons]
        right
        exact h2

/-- Whether an event is an `answerFeedback` delivered to the given id. -/
def isFeedbackFor (e : ServerEvent) (sid : String) : Bool :=
  match e with
  | ServerEvent.answerFeedback t _ _ _ => t == sid
  | _ => false

theorem scorePass_countP (ca : Nat) (timer : Int) (fa : List (String × Nat)) (sid : String)
    (ps : List Player) :
    ∀ c, ((scorePass ca timer fa c ps).2.countP (fun e => isFeedbackFor e sid)) =
      ps.countP (fun q => q.id == sid) := by
  induction ps with
  | nil => intro c; simp [scorePass]
  | cons q qs ih =>
    intro c
    have hhead : isFeedbackFor (ServerEvent.answerFeedback q.id
        (decide (q.currentAnswer = some ca)) (awardPoints ca timer fa c q).1
        (awardPoints ca timer fa c q).2) sid = (q.id == sid) := rfl
    simp only [scorePass, List.countP_cons, hhead, ih]

theorem scorePass_events_mem (ca : Nat) (timer : Int) (fa : List (String × Nat))
    (ps : List Player) :
    ∀ c e, e ∈ (scorePass ca timer fa c ps).2 → ∃ p, p ∈ ps ∧ isFeedbackFor e p.id = true := by
  induction ps with
  | nil => intro c e he; simp [scorePass] at he
  | cons q qs ih =>
    intro c e he
    simp only [scorePass, List.mem_cons] at he
    rcases he with rfl | hmem
    · exact ⟨q, List.mem_cons_self q qs, by simp [isFeedbackFor]⟩
    · obtain ⟨p, hp, he2⟩ := ih _ e hmem
      exact ⟨p, List.mem_cons_of_mem q hp, he2⟩

/-! ### Behaviour of `calculateScores` on the live player record -/

theorem filter_ids_nodup (l : List Player) (hnd : (l.map (fun q => q.id)).Nodup)
    (pr : Player → Bool) : ((l.filter pr).map (fun q => q.id)).Nodup :=
  List.Nodup.sublist (List.Sublist.map (fun q => q.id) (List.filter_sublist l)) hnd

theorem sortedNonHost_ids_nodup (st : ServerState)
    (hnd : (st.game.players.map (fun q => q.id)).Nodup) :
    ((sortedNonHost st).map (fun q => q.id)).Nodup := by
  have h1 := filter_ids_nodup st.game.players hnd (fun p => !p.isHost)
  have h2 := (sortPlayers_perm (st.game.players.filter (fun p => !p.isHost))).map
    (fun q => q.id)
  exact h2.nodup_iff.mpr h1

theorem mem_sortedNonHost {st : ServerState} {p : Player} (hp : p ∈ st.game.players)
    (hh : p.isHost = false) : p ∈ sortedNonHost st := by
  unfold sortedNonHost
  rw [(sortPlayers_perm _).mem_iff]
  exact List.mem_filter.mpr ⟨hp, by simp [hh]⟩

theorem inj_id_of_nodup {l : List Player} (hnd : (l.map (fun q => q.id)).Nodup)
    {x y : Player} (hx : x ∈ l) (hy : y ∈ l) (he : x.id = y.id) : x = y :=
  List.inj_on_of_nodup_map hnd hx hy he

theorem calculateScores_getPlayer (st : ServerState) (p : Player)
    (hnd : (st.game.players.map (fun q => q.id)).Nodup) (hp : p ∈ st.game.players) :
    getPlayer (calculateScores st).1.game.players p.id =
      some (applyScores (scoringOutput st).1 p) := by
  show (st.game.players.map (applyScores (scoringOutput st).1)).find? (fun q => q.id == p.id)
      = some (applyScores (scoringOutput st).1 p)
  rw [find?_map_of_id _ (applyScores_id (scoringOutput st).1) p.id st.game.players,
      find?_id_eq_of_nodup st.game.players hnd p hp]
  rfl

theorem calculateScores_host (st : ServerState) (p : Player)
    (hnd : (st.game.players.map (fun q => q.id)).Nodup)
    (hp : p ∈ st.game.players) (hh : p.isHost = true) :
    getPlayer (calculateScores st).1.game.players p.id = some p := by
  rw [calculateScores_getPlayer st p hnd hp]
  unfold applyScores
  rw [if_pos hh]

theorem calculateScores_nonhost (st : ServerState) (p : Player)
    (hnd : (st.game.players.map (fun q => q.id)).Nodup)
    (hp : p ∈ st.game.players) (hh : p.isHost = false) :
    ∃ cc,
      getPlayer (calculateScores st).1.game.players p.id =
        some { p with
          lastScoreChange :=
            (awardPoints (currentCorrectAnswer st.game) st.game.timer st.firstAnswers cc p).1
          score := p.score +
            (awardPoints (currentCorrectAnswer st.game) st.game.timer st.firstAnswers cc p).1 } ∧
      ServerEvent.answerFeedback p.id
          (decide (p.currentAnswer = some (currentCorrectAnswer st.game)))
          (awardPoints (currentCorrectAnswer st.game) st.game.timer st.firstAnswers cc p).1
          (awardPoints (currentCorrectAnswer st.game) st.game.timer st.firstAnswers cc p).2
        ∈ (calculateScores st).2 := by
  obtain ⟨cc, h1, h2⟩ := scorePass_find (currentCorrectAnswer st.game) st.game.timer
    st.firstAnswers (sortedNonHost st) 0 p (sortedNonHost_ids_nodup st hnd)
    (mem_sortedNonHost hp hh)
  refine ⟨cc, ?_, ?_⟩
  · rw [calculateScores_getPlayer st p hnd hp]
    unfold applyScores
    rw [if_neg (by simp [hh])]
    have hso : (scoringOutput st).1 =
        (scorePass (currentCorrectAnswer st.game) st.game.timer st.firstAnswers 0
          (sortedNonHost st)).1 := rfl
    rw [hso, h1]
  · exact h2

/-! ### Behaviour of `submitAnswer` when the guard passes -/

theorem handleSubmitAnswer_some (st : ServerState) (sid : String) (a now : Nat) (p : Player)
    (hp : getPlayer st.game.players sid = some p) (hq : st.game.state = GameState.QUESTION) :
    (handleSubmitAnswer st sid a now).1 = { st with
      game := { st.game with
        players := st.game.players.map (submitUpdate sid a now st.firstAnswers) }
      firstAnswers := if lookupFA st.firstAnswers sid = none
        then st.firstAnswers ++ [(sid, a)] else st.firstAnswers } := by
  unfold handleSubmitAnswer
  rw [hp]
  simp [hq]

theorem getPlayer_after_submit (st : ServerState) (sid : String) (a now : Nat) (p : Player)
    (hp : getPlayer st.game.players sid = some p) (hq : st.game.state = GameState.QUESTION) :
    getPlayer (handleSubmitAnswer st sid a now).1.game.players sid =
      some { p with
        hasChangedAnswer := if lookupFA st.firstAnswers sid = none
          then p.hasChangedAnswer else true
        currentAnswer := some a
        answerTime := some now } := by
  have hfind : List.find? (fun q => q.id == sid) st.game.players = some p := hp
  have hpid := List.find?_some hfind
  rw [handleSubmitAnswer_some st sid a now p hp hq]
  show (st.game.players.map (submitUpdate sid a now st.firstAnswers)).find?
      (fun q => q.id == sid) = _
  rw [find?_map_of_id _ (submitUpdate_id sid a now st.firstAnswers) sid st.game.players]
  rw [hfind]
  show some (submitUpdate sid a now st.firstAnswers p) = _
  unfold submitUpdate
  rw [if_pos hpid]

theorem firstAnswers_after_submit (st : ServerState) (sid : String) (a now : Nat) (p : Player)
    (hp : getPlayer st.game.players sid = some p) (hq : st.game.state = GameState.QUESTION) :
    (handleSubmitAnswer st sid a now).1.firstAnswers =
      (if lookupFA st.firstAnswers sid = none
       then st.firstAnswers ++ [(sid, a)] else st.firstAnswers) := by
  rw [handleSubmitAnswer_some st sid a now p hp hq]

theorem state_after_submit (st : ServerState) (sid : String) (a now : Nat) (p : Player)
    (hp : getPlayer st.game.players sid = some p) (hq : st.game.state = GameState.QUESTION) :
    (handleSubmitAnswer st sid a now).1.game.state = st.game.state := by
  rw [handleSubmitAnswer_some st sid a now p hp hq]

/-! ### Claim C1: award for a changed correct answer depends on the countdown -/

/-- C1: In the scoring pass at the answering-to-reveal boundary, every
non-host participant whose changed-answer flag is true and whose final
selected option equals the question's correct option index is awarded
10 points when the countdown value at the moment of scoring is greater
than 3, and 5 points when that countdown value is at most 3: the award
becomes the participant's last score change, is added to their score,
and is delivered in their private feedback event (with the
corresponding reason). -/
theorem changed_answer_award_depends_on_timer (st : ServerState) (p : Player)
    (hnd : (st.game.players.map (fun q => q.id)).Nodup)
    (hp : p ∈ st.game.players)
    (hh : p.isHost = false)
    (hch : p.hasChangedAnswer = true)
    (hans : p.currentAnswer = some (currentCorrectAnswer st.game)) :
    getPlayer (calculateScores st).1.game.players p.id =
      some { p with
        lastScoreChange := if st.game.timer ≤ 3 then 5 else 10
        score := p.score + (if st.game.timer ≤ 3 then 5 else 10) } ∧
    ServerEvent.answerFeedback p.id true (if st.game.timer ≤ 3 then 5 else 10)
        (if st.game.timer ≤ 3 then REASON_CHANGED_LATE else REASON_CHANGED)
      ∈ (calculateScores st).2 := by
  obtain ⟨cc, h1, h2⟩ := calculateScores_nonhost st p hnd hp hh
  have haw : awardPoints (currentCorrectAnswer st.game) st.game.timer st.firstAnswers cc p =
      (if st.game.timer ≤ 3 then (5, REASON_CHANGED_LATE) else (10, REASON_CHANGED)) := by
    unfold awardPoints
    rw [if_pos hans, if_neg (by simp [hch]), if_pos hch]
  rw [haw] at h1 h2
  have hd : decide (p.currentAnswer = some (currentCorrectAnswer st.game)) = true := by
    rw [hans]
    simp
  rw [hd] at h2
  by_cases ht : st.game.timer ≤ 3
  · simp only [if_pos ht] at h1 h2 ⊢
    exact ⟨h1, h2⟩
  · simp only [if_neg ht] at h1 h2 ⊢
    exact ⟨h1, h2⟩

/-- Witness player for C1: answered correctly after changing. -/
def wPlayerC1 : Player :=
  { id := "a", name := "A", avatar := none, score := 7, lastScoreChange := 0,
    currentAnswer := some 0, hasChangedAnswer := true, answerTime := some 5, isHost := false }

/-- Witness game data for C1: scoring happens with the countdown at 0. -/
def wGameC1 : GameData :=
  { state := GameState.QUESTION
    currentQuestionIndex := 0
    questions := QUESTIONS
    players := [wPlayerC1]
    timer := 0 }

/-- Witness state for C1. -/
def wStateC1 : ServerState :=
  { game := wGameC1, firstAnswers := [("a", 1)], activeTimer := none }

theorem changed_answer_award_witness :
    getPlayer (calculateScores wStateC1).1.game.players "a" =
      some { wPlayerC1 with lastScoreChange := 5, score := 12 } ∧
    ServerEvent.answerFeedback "a" true 5 REASON_CHANGED_LATE ∈ (calculateScores wStateC1).2 := by
  have h := changed_answer_award_depends_on_timer wStateC1 wPlayerC1 (by decide) (by decide)
    (by decide) (by decide) (by decide)
  refine ⟨h.1.trans (by decide), ?_⟩
  have he : ServerEvent.answerFeedback "a" true 5 REASON_CHANGED_LATE =
      ServerEvent.answerFeedback wPlayerC1.id true
        (if wStateC1.game.timer ≤ 3 then 5 else 10)
        (if wStateC1.game.timer ≤ 3 then REASON_CHANGED_LATE else REASON_CHANGED) := by
    decide
  rw [he]
  exact h.2

/-! ### Claim C3 (corrected): what entering the reading phase resets -/

/-- Counterexample player for C3: carries a recorded submission
timestamp and answer state from the previous question. -/
def wPlayerC3 : Player :=
  { id := "a", name := "A", avatar := none, score := 4, lastScoreChange := 2,
    currentAnswer := some 1, hasChangedAnswer := true, answerTime := some 100, isHost := false }

/-- Counterexample game data for C3. -/
def wGameC3 : GameData :=
  { state := GameState.QUESTION
    currentQuestionIndex := 0
    questions := []
    players := [wPlayerC3]
    timer := 7 }

/-- Counterexample state for C3. -/
def wStateC3 : ServerState :=
  { game := wGameC3, firstAnswers := [("a", 1)], activeTimer := some PendingPhase.toReveal }

/-- C3 counterexample: entering the reading phase does NOT reset the
most-recent-submission timestamp: a participant with submission time
100 still has it afterwards, contradicting the claim that the
timestamp is among the reset fields. -/
theorem reading_phase_keeps_timestamp_cex :
    ((startReadingPhase wStateC3).1.game.players.map (fun p => p.answerTime)) ≠ [none] := by
  decide

/-- C3 (amended): every entry into the reading phase sets the phase to
READING, replaces any running timer with the fixed 5-second reading
countdown, clears the scoring scratch state, and resets each
participant's current selected option, changed-answer flag and last
score delta — but leaves the most-recent-submission timestamp (and the
cumulative score) unchanged. -/
theorem reading_phase_reset (st : ServerState) :
    (startReadingPhase st).1.game.state = GameState.READING ∧
    (startReadingPhase st).1.firstAnswers = [] ∧
    (startReadingPhase st).1.game.timer = 5 ∧
    (startReadingPhase st).1.activeTimer = some PendingPhase.toQuestion ∧
    (∀ (i : Nat) (p : Player), st.game.players[i]? = some p →
      (startReadingPhase st).1.game.players[i]? =
        some { p with currentAnswer := none, hasChangedAnswer := false,
                      lastScoreChange := 0 }) := by
  refine ⟨rfl, rfl, rfl, rfl, ?_⟩
  intro i p hip
  show (st.game.players.map resetForReading)[i]? = some (resetForReading p)
  rw [List.getElem?_map, hip]
  rfl

theorem reading_phase_reset_witness :
    (startReadingPhase wStateC3).1.game.timer = 5 ∧
    (startReadingPhase wStateC3).1.game.players[0]? =
      some { id := "a", name := "A", avatar := none, score := 4, lastScoreChange := 0,
             currentAnswer := none, hasChangedAnswer := false, answerTime := some 100,
             isHost := false } := by
  have h := reading_phase_reset wStateC3
  refine ⟨h.2.2.1, ?_⟩
  have h5 := h.2.2.2.2 0 wPlayerC3 rfl
  exact h5.trans (by decide)

/-! ### Claims C4 and C5 (corrected): host commands carry no phase guard -/

/-- A host participant used by the C4/C5/C8 inputs. -/
def wHost : Player :=
  { id := "h", name := "H", avatar := none, score := 3, lastScoreChange := 0,
    currentAnswer := none, hasChangedAnswer := false, answerTime := none, isHost := true }

/-- C4 counterexample game data: the session is in the QUESTION phase,
not LOBBY. -/
def wGameC4 : GameData :=
  { state := GameState.QUESTION
    currentQuestionIndex := 2
    questions := []
    players := [wHost]
    timer := 9 }

/-- C4 counterexample state. -/
def wStateC4 : ServerState :=
  { game := wGameC4, firstAnswers := [], activeTimer := some PendingPhase.toReveal }

/-- C4 counterexample: a host start command issued from the QUESTION
phase (not LOBBY) is NOT silently ignored — the state changes and the
session enters READING, contradicting the claimed phase-validity. -/
theorem host_start_outside_lobby_cex :
    wStateC4.game.state = GameState.QUESTION ∧
    (handleHostStartGame wStateC4 "h").1.game.state = GameState.READING ∧
    (handleHostStartGame wStateC4 "h").1 ≠ wStateC4 := by
  decide

/-- C4 (amended): the start command is gated only on the caller being a
host; the source has no phase check.  From ANY phase, a host-issued
start resets every participant's score and last score delta to 0, sets
the question index to 0, clears the scratch state, and enters READING
with the 5-second reading countdown.  (It is a silent no-op exactly
when the caller is absent or not host-flagged — claim C6.) -/
theorem host_start_any_phase (st : ServerState) (sid : String) (p : Player)
    (hp : getPlayer st.game.players sid = some p) (hh : p.isHost = true) :
    (handleHostStartGame st sid).1.game.state = GameState.READING ∧
    (handleHostStartGame st sid).1.game.currentQuestionIndex = 0 ∧
    (handleHostStartGame st sid).1.game.timer = 5 ∧
    (handleHostStartGame st sid).1.firstAnswers = [] ∧
    ∀ q ∈ (handleHostStartGame st sid).1.game.players, q.score = 0 ∧ q.lastScoreChange = 0 := by
  have hred : handleHostStartGame st sid = startReadingPhase { st with
      game := { st.game with
        currentQuestionIndex := 0
        players := st.game.players.map (fun q => { q with score := 0, lastScoreChange := 0 }) } } := by
    unfold handleHostStartGame
    rw [hp]
    simp [hh]
  rw [hred]
  refine ⟨rfl, rfl, rfl, rfl, ?_⟩
  intro q hq
  have hq2 : q ∈ (st.game.players.map
      (fun r => { r with score := 0, lastScoreChange := 0 })).map resetForReading := hq
  rcases List.mem_map.mp hq2 with ⟨r, hr, rfl⟩
  rcases List.mem_map.mp hr with ⟨s, _, rfl⟩
  exact ⟨rfl, rfl⟩

theorem host_start_any_phase_witness :
    (handleHostStartGame wStateC4 "h").1.game.currentQuestionIndex = 0 ∧
    (handleHostStartGame wStateC4 "h").1.game.timer = 5 := by
  have h := host_start_any_phase wStateC4 "h" wHost (by decide) rfl
  exact ⟨h.2.1, h.2.2.1⟩

/-- C5 counterexample game data: the session is in LOBBY, not
LEADERBOARD, on question 0. -/
def wGameC5 : GameData :=
  { state := GameState.LOBBY
    currentQuestionIndex := 0
    questions := []
    players := [wHost]
    timer := 0 }

/-- C5 counterexample state. -/
def wStateC5 : ServerState :=
  { game := wGameC5, firstAnswers := [], activeTimer := none }

/-- C5 counterexample: hostNextQuestion issued from a phase other than
LEADERBOARD (here LOBBY) is NOT ignored: the index is incremented and
the session enters READING, contradicting the claimed phase-validity. -/
theorem host_next_outside_leaderboard_cex :
    wStateC5.game.state = GameState.LOBBY ∧
    (handleHostNextQuestion wStateC5 "h").1.game.currentQuestionIndex = 1 ∧
    (handleHostNextQuestion wStateC5 "h").1.game.state = GameState.READING := by
  decide

/-- C5 (amended): the advance command is gated only on the caller being
a host; the source has no phase check.  From ANY phase, when the
current question index is below the last bank index the index is
incremented and the session enters READING; otherwise the session
enters FINAL_RESULTS with the index unchanged. -/
theorem host_next_any_phase (st : ServerState) (sid : String) (p : Player)
    (hp : getPlayer st.game.players sid = some p) (hh : p.isHost = true) :
    (st.game.currentQuestionIndex < QUESTIONS.length - 1 →
      (handleHostNextQuestion st sid).1.game.currentQuestionIndex =
        st.game.currentQuestionIndex + 1 ∧
      (handleHostNextQuestion st sid).1.game.state = GameState.READING) ∧
    (¬ st.game.currentQuestionIndex < QUESTIONS.length - 1 →
      (handleHostNextQuestion st sid).1.game.state = GameState.FINAL_RESULTS ∧
      (handleHostNextQuestion st sid).1.game.currentQuestionIndex =
        st.game.currentQuestionIndex) := by
  constructor
  · intro hlt
    have hred : handleHostNextQuestion st sid = startReadingPhase { st with
        game := { st.game with currentQuestionIndex := st.game.currentQuestionIndex + 1 } } := by
      unfold handleHostNextQuestion
      rw [hp]
      simp [hh, hlt]
    rw [hred]
    exact ⟨rfl, rfl⟩
  · intro hge
    have hred : handleHostNextQuestion st sid =
        ({ st with game := { st.game with state := GameState.FINAL_RESULTS } },
         [broadcastOf { st with game := { st.game with state := GameState.FINAL_RESULTS } }]) := by
      unfold handleHostNextQuestion
      rw [hp]
      simp [hh, hge]
    rw [hred]
    exact ⟨rfl, rfl⟩

theorem host_next_any_phase_witness :
    wStateC5.game.currentQuestionIndex < QUESTIONS.length - 1 ∧
    (handleHostNextQuestion wStateC5 "h").1.game.currentQuestionIndex = 1 := by
  have h := host_next_any_phase wStateC5 "h" wHost (by decide) rfl
  have hlt : wStateC5.game.currentQuestionIndex < QUESTIONS.length - 1 := by decide
  exact ⟨hlt, (h.1 hlt).1⟩

/-! ### Claim C6: host commands are silent no-ops for non-host callers -/

/-- C6: whenever the caller's participant record is absent, or present
with the host flag false, each of the three host commands returns the
state unchanged and emits no event at all (in particular no broadcast). -/
theorem nonhost_commands_noop (st : ServerState) (sid : String)
    (h : ∀ p, getPlayer st.game.players sid = some p → p.isHost = false) :
    handleHostStartGame st sid = (st, []) ∧
    handleHostNextQuestion st sid = (st, []) ∧
    handleHostResetGame st sid = (st, []) := by
  cases hg : getPlayer st.game.players sid with
  | none =>
    unfold handleHostStartGame handleHostNextQuestion handleHostResetGame
    rw [hg]
    exact ⟨rfl, rfl, rfl⟩
  | some p =>
    have hh := h p hg
    unfold handleHostStartGame handleHostNextQuestion handleHostResetGame
    rw [hg]
    simp [hh]

/-- A non-host participant used by the C6/C7/C8/C9 inputs. -/
def wNonHost : Player :=
  { id := "n", name := "N", avatar := none, score := 0, lastScoreChange := 0,
    currentAnswer := none, hasChangedAnswer := false, answerTime := none, isHost := false }

/-- Witness game data for C6. -/
def wGameC6 : GameData :=
  { state := GameState.LOBBY
    currentQuestionIndex := 0
    questions := []
    players := [wNonHost]
    timer := 0 }

/-- Witness state for C6. -/
def wStateC6 : ServerState :=
  { game := wGameC6, firstAnswers := [], activeTimer := none }

theorem nonhost_commands_noop_witness :
    handleHostStartGame wStateC6 "n" = (wStateC6, []) ∧
    handleHostNextQuestion wStateC6 "n" = (wStateC6, []) ∧
    handleHostResetGame wStateC6 "n" = (wStateC6, []) := by
  have h := nonhost_commands_noop wStateC6 "n" (by
    intro p hp
    have hc : getPlayer wStateC6.game.players "n" = some wNonHost := by decide
    rw [hc] at hp
    rw [← Option.some.inj hp]
    rfl)
  exact h

/-! ### Claim C7: submitAnswer guard and effect -/

/-- C7: submitAnswer is a no-op (state unchanged, no event) whenever
the phase is not the answering phase (QUESTION) or the caller has no
participant record; otherwise it sets the caller's current selected
option to the given index, updates the submission timestamp, records
the index as the scratch first answer when none is recorded, and sets
the changed-answer flag when a first answer was already recorded. -/
theorem submit_answer_spec (st : ServerState) (sid : String) (a now : Nat) :
    ((st.game.state ≠ GameState.QUESTION ∨ getPlayer st.game.players sid = none) →
      handleSubmitAnswer st sid a now = (st, [])) ∧
    (∀ p, getPlayer st.game.players sid = some p → st.game.state = GameState.QUESTION →
      getPlayer (handleSubmitAnswer st sid a now).1.game.players sid =
        some { p with
          hasChangedAnswer := if lookupFA st.firstAnswers sid = none
            then p.hasChangedAnswer else true
          currentAnswer := some a
          answerTime := some now } ∧
      lookupFA (handleSubmitAnswer st sid a now).1.firstAnswers sid =
        (if lookupFA st.firstAnswers sid = none then some a
         else lookupFA st.firstAnswers sid)) := by
  constructor
  · intro hdis
    cases hg : getPlayer st.game.players sid with
    | none =>
      unfold handleSubmitAnswer
      rw [hg]
    | some p =>
      have hs : st.game.state ≠ GameState.QUESTION := by
        rcases hdis with hs | hn
        · exact hs
        · rw [hg] at hn
          exact absurd hn (by simp)
      unfold handleSubmitAnswer
      rw [hg]
      simp [hs]
  · intro p hg hq
    refine ⟨getPlayer_after_submit st sid a now p hg hq, ?_⟩
    rw [firstAnswers_after_submit st sid a now p hg hq]
    by_cases hfa : lookupFA st.firstAnswers sid = none
    · rw [if_pos hfa, if_pos hfa]
      exact lookupFA_append sid a st.firstAnswers hfa
    · rw [if_neg hfa, if_neg hfa]

/-- Witness game data for C7: answering phase, one player. -/
def wGameC7 : GameData :=
  { state := GameState.QUESTION
    currentQuestionIndex := 0
    questions := []
    players := [wNonHost]
    timer := 10 }

/-- Witness state for C7/C9: no scratch first answer recorded yet. -/
def wStateC7 : ServerState :=
  { game := wGameC7, firstAnswers := [], activeTimer := some PendingPhase.toReveal }

theorem submit_answer_spec_witness :
    getPlayer (handleSubmitAnswer wStateC7 "n" 2 50).1.game.players "n" =
      some { wNonHost with
             hasChangedAnswer := false
             currentAnswer := some 2
             answerTime := some 50 } ∧
    lookupFA (handleSubmitAnswer wStateC7 "n" 2 50).1.firstAnswers "n" = some 2 := by
  have h := (submit_answer_spec wStateC7 "n" 2 50).2 wNonHost (by decide) rfl
  exact ⟨h.1.trans (by decide), h.2.trans (by decide)⟩

/-! ### Claim C8: scoring never touches hosts; one private event per player -/

/-- C8: the scoring pass never modifies a host-flagged participant
(their whole record, in particular score and last score delta, is
unchanged) and sends them no answerFeedback event; every non-host
participant is the target of exactly one answerFeedback event of the
pass, and every event of the pass is an answerFeedback addressed to
the id of some non-host participant (events are delivered per-id,
never broadcast). -/
theorem scoring_host_frame (st : ServerState)
    (hnd : (st.game.players.map (fun q => q.id)).Nodup) :
    (∀ p ∈ st.game.players, p.isHost = true →
      getPlayer (calculateScores st).1.game.players p.id = some p ∧
      (calculateScores st).2.countP (fun e => isFeedbackFor e p.id) = 0) ∧
    (∀ p ∈ st.game.players, p.isHost = false →
      (calculateScores st).2.countP (fun e => isFeedbackFor e p.id) = 1) ∧
    (∀ e ∈ (calculateScores st).2, ∃ q, q ∈ st.game.players ∧ q.isHost = false ∧
      isFeedbackFor e q.id = true) := by
  have hcount : ∀ sid : String,
      (calculateScores st).2.countP (fun e => isFeedbackFor e sid) =
      (st.game.players.filter (fun r => !r.isHost)).countP (fun q => q.id == sid) := by
    intro sid
    have h1 : (calculateScores st).2 =
        (scorePass (currentCorrectAnswer st.game) st.game.timer st.firstAnswers 0
          (sortedNonHost st)).2 := rfl
    rw [h1, scorePass_countP]
    exact (sortPlayers_perm (st.game.players.filter (fun r => !r.isHost))).countP_eq _
  refine ⟨?_, ?_, ?_⟩
  · intro p hp hh
    refine ⟨calculateScores_host st p hnd hp hh, ?_⟩
    rw [hcount p.id]
    rw [List.countP_eq_zero]
    intro r hr
    rcases List.mem_filter.mp hr with ⟨hrmem, hrh⟩
    simp only [beq_iff_eq]
    intro he
    have := inj_id_of_nodup hnd hrmem hp he
    rw [this] at hrh
    rw [hh] at hrh
    simp at hrh
  · intro p hp hh
    rw [hcount p.id]
    exact countP_id_eq_one (st.game.players.filter (fun r => !r.isHost))
      (filter_ids_nodup st.game.players hnd (fun r => !r.isHost)) p
      (List.mem_filter.mpr ⟨hp, by simp [hh]⟩)
  · intro e he
    have he2 : e ∈ (scorePass (currentCorrectAnswer st.game) st.game.timer st.firstAnswers 0
        (sortedNonHost st)).2 := he
    obtain ⟨q, hq, hqe⟩ := scorePass_events_mem (currentCorrectAnswer st.game) st.game.timer
      st.firstAnswers (sortedNonHost st) 0 e he2
    have hq2 := List.mem_filter.mp (mem_sortPlayers hq)
    refine ⟨q, hq2.1, ?_, hqe⟩
    have := hq2.2
    simp at this
    exact this

/-- Witness game data for C8: one host, one non-host player. -/
def wGameC8 : GameData :=
  { state := GameState.QUESTION
    currentQuestionIndex := 0
    questions := QUESTIONS
    players := [wHost, wNonHost]
    timer := 0 }

/-- Witness state for C8. -/
def wStateC8 : ServerState :=
  { game := wGameC8, firstAnswers := [], activeTimer := none }

theorem scoring_host_frame_witness :
    getPlayer (calculateScores wStateC8).1.game.players "h" = some wHost ∧
    (calculateScores wStateC8).2.countP (fun e => isFeedbackFor e "h") = 0 ∧
    (calculateScores wStateC8).2.countP (fun e => isFeedbackFor e "n") = 1 := by
  have h := scoring_host_frame wStateC8 (by decide)
  have h1 := h.1 wHost (by decide) rfl
  have h2 := h.2.1 wNonHost (by decide) rfl
  exact ⟨h1.1, h1.2, h2⟩

/-! ### Claim C9: resubmitting the same index sets the changed flag -/

/-- C9: if a participant (with a scratch entry not yet recorded) submits
an index and then submits the SAME index again during the answering
phase, their changed-answer flag becomes true; consequently at scoring
such a participant with the correct final answer is handled by the
changed-answer branch — 5 points when the countdown at scoring is at
most 3, else 10 — and never by the unchanged first-five 20-point tier,
although the selection never actually changed. -/
theorem resubmit_same_answer_changed_flag (st : ServerState) (sid : String) (p : Player)
    (a t1 t2 : Nat)
    (hp : getPlayer st.game.players sid = some p)
    (hq : st.game.state = GameState.QUESTION)
    (hfa : lookupFA st.firstAnswers sid = none) :
    getPlayer (handleSubmitAnswer (handleSubmitAnswer st sid a t1).1 sid a t2).1.game.players
        sid =
      some { p with
             hasChangedAnswer := true
             currentAnswer := some a
             answerTime := some t2 } ∧
    (∀ (timer : Int) (fa2 : List (String × Nat)) (cc : Nat),
      awardPoints a timer fa2 cc
        { p with hasChangedAnswer := true, currentAnswer := some a, answerTime := some t2 } =
        (if timer ≤ 3 then (5, REASON_CHANGED_LATE) else (10, REASON_CHANGED))) := by
  have h1 := getPlayer_after_submit st sid a t1 p hp hq
  rw [if_pos hfa] at h1
  have hst1 : (handleSubmitAnswer st sid a t1).1.game.state = GameState.QUESTION := by
    rw [state_after_submit st sid a t1 p hp hq]
    exact hq
  have hfa1 : lookupFA (handleSubmitAnswer st sid a t1).1.firstAnswers sid = some a := by
    rw [firstAnswers_after_submit st sid a t1 p hp hq, if_pos hfa]
    exact lookupFA_append sid a st.firstAnswers hfa
  have h2 := getPlayer_after_submit (handleSubmitAnswer st sid a t1).1 sid a t2 _ h1 hst1
  have hne : ¬ (lookupFA (handleSubmitAnswer st sid a t1).1.firstAnswers sid = none) := by
    rw [hfa1]
    simp
  rw [if_neg hne] at h2
  refine ⟨h2, ?_⟩
  intro timer fa2 cc
  unfold awardPoints
  rw [if_pos rfl, if_neg (by simp), if_pos rfl]

theorem resubmit_same_answer_changed_flag_witness :
    getPlayer (handleSubmitAnswer (handleSubmitAnswer wStateC7 "n" 1 10).1 "n" 1 20).1.game.players
        "n" =
      some { wNonHost with
             hasChangedAnswer := true
             currentAnswer := some 1
             answerTime := some 20 } ∧
    awardPoints 1 0 [] 0
      { wNonHost with hasChangedAnswer := true, currentAnswer := some 1, answerTime := some 20 } =
      (5, REASON_CHANGED_LATE) := by
  have h := resubmit_same_answer_changed_flag wStateC7 "n" wNonHost 1 10 20 (by decide) rfl rfl
  exact ⟨h.1, (h.2 0 [] 0).trans (by decide)⟩

/-! ### Claim C10: join replaces the record wholesale but keeps the scratch -/

/-- C10: join replaces the caller's participant record wholesale (score
0, last delta 0, no current answer, changed-flag false, no submission
timestamp) while leaving the scoring scratch state untouched; hence a
connection that re-joins mid-question after having already submitted
keeps its scratch first-answer entry, so its next submitAnswer sets the
changed-answer flag (and records no fresh first answer: the scratch is
unchanged). -/
theorem rejoin_keeps_scratch (st : ServerState) (sid nm : String) (hostFlag : Bool)
    (av : Option String) :
    (handleJoin st sid nm hostFlag av).1.firstAnswers = st.firstAnswers ∧
    getPlayer (handleJoin st sid nm hostFlag av).1.game.players sid =
      some { id := sid, name := nm, avatar := av, score := 0, lastScoreChange := 0,
             currentAnswer := none, hasChangedAnswer := false, answerTime := none,
             isHost := hostFlag } ∧
    (∀ (v a now : Nat), lookupFA st.firstAnswers sid = some v →
      st.game.state = GameState.QUESTION →
      (handleSubmitAnswer (handleJoin st sid nm hostFlag av).1 sid a now).1.firstAnswers =
        st.firstAnswers ∧
      getPlayer
          (handleSubmitAnswer (handleJoin st sid nm hostFlag av).1 sid a now).1.game.players
          sid =
        some { id := sid, name := nm, avatar := av, score := 0, lastScoreChange := 0,
               currentAnswer := some a, hasChangedAnswer := true, answerTime := some now,
               isHost := hostFlag }) := by
  have hg1 : getPlayer (handleJoin st sid nm hostFlag av).1.game.players sid =
      some { id := sid, name := nm, avatar := av, score := 0, lastScoreChange := 0,
             currentAnswer := none, hasChangedAnswer := false, answerTime := none,
             isHost := hostFlag } :=
    getPlayer_setPlayer st.game.players
      { id := sid, name := nm, avatar := av, score := 0, lastScoreChange := 0,
        currentAnswer := none, hasChangedAnswer := false, answerTime := none,
        isHost := hostFlag }
  refine ⟨rfl, hg1, ?_⟩
  intro v a now hfa hq
  have hq1 : (handleJoin st sid nm hostFlag av).1.game.state = GameState.QUESTION := hq
  have hne : ¬ (lookupFA (handleJoin st sid nm hostFlag av).1.firstAnswers sid = none) := by
    show ¬ (lookupFA st.firstAnswers sid = none)
    rw [hfa]
    simp
  constructor
  · rw [firstAnswers_after_submit (handleJoin st sid nm hostFlag av).1 sid a now _ hg1 hq1]
    rw [if_neg hne]
    rfl
  · have h2 := getPlayer_after_submit (handleJoin st sid nm hostFlag av).1 sid a now _ hg1 hq1
    rw [if_neg hne] at h2
    exact h2

/-- Witness game data for C10: answering phase, no players yet. -/
def wGameC10 : GameData :=
  { state := GameState.QUESTION
    currentQuestionIndex := 0
    questions := []
    players := []
    timer := 8 }

/-- Witness state for C10: a scratch entry for id n survives from
before the re-join. -/
def wStateC10 : ServerState :=
  { game := wGameC10, firstAnswers := [("n", 3)], activeTimer := none }

theorem rejoin_keeps_scratch_witness :
    (handleSubmitAnswer (handleJoin wStateC10 "n" "N" false none).1 "n" 0 99).1.firstAnswers =
      [("n", 3)] ∧
    getPlayer
        (handleSubmitAnswer (handleJoin wStateC10 "n" "N" false none).1 "n" 0 99).1.game.players
        "n" =
      some { id := "n", name := "N", avatar := none, score := 0, lastScoreChange := 0,
             currentAnswer := some 0, hasChangedAnswer := true, answerTime := some 99,
             isHost := false } := by
  have h := (rejoin_keeps_scratch wStateC10 "n" "N" false none).2.2 3 0 99 (by decide) rfl
  exact ⟨h.1, h.2⟩

/-! ### Claim C2: tiered award for the first five unchanged correct answers -/

/-- C2: The scoring pass processes the non-host participants in
ascending order of submission timestamp with missing timestamps last
(first conjunct, for the processing list `sortedNonHost`; the
hypothesis excludes the timestamp value 0, which the comparator's
falsy-coercion would also send to the end — `Date.now()` is never 0).
Among them, a participant whose final answer is correct, whose
changed-answer flag is false and whose scratch-recorded first answer
equals the correct option index is awarded 20 points when fewer than 5
qualifying participants precede them in that order, and 10 points
otherwise — so the first 5 such participants get 20 each and every
later one gets 10; the award is that participant's score increment and
private feedback. -/
theorem first_five_tier_award (st : ServerState)
    (h0 : ∀ p ∈ st.game.players, p.answerTime ≠ some 0) :
    List.Pairwise tsOrd (sortedNonHost st) ∧
    (∀ (i : Nat) (p : Player), (sortedNonHost st)[i]? = some p →
      p.currentAnswer = some (currentCorrectAnswer st.game) →
      p.hasChangedAnswer = false →
      lookupFA st.firstAnswers p.id = some (currentCorrectAnswer st.game) →
      (scoringOutput st).2[i]? =
        some (ServerEvent.answerFeedback p.id true
          (if ((sortedNonHost st).take i).countP
              (tierQualified (currentCorrectAnswer st.game) st.firstAnswers) < 5
           then 20 else 10)
          (if ((sortedNonHost st).take i).countP
              (tierQualified (currentCorrectAnswer st.game) st.firstAnswers) < 5
           then REASON_FIRST5 else REASON_UNCHANGED)) ∧
      (scoringOutput st).1[i]? =
        some { p with
          lastScoreChange := if ((sortedNonHost st).take i).countP
              (tierQualified (currentCorrectAnswer st.game) st.firstAnswers) < 5
            then 20 else 10
          score := p.score + (if ((sortedNonHost st).take i).countP
              (tierQualified (currentCorrectAnswer st.game) st.firstAnswers) < 5
            then 20 else 10) }) := by
  constructor
  · have hsr : (sortedNonHost st).Pairwise sortedRel := pairwise_sortPlayers _
    refine hsr.imp_of_mem ?_
    intro a b hamem hbmem hr
    have hamem2 : a ∈ sortPlayers (st.game.players.filter (fun r => !r.isHost)) := hamem
    have hbmem2 : b ∈ sortPlayers (st.game.players.filter (fun r => !r.isHost)) := hbmem
    have ha0 : a.answerTime ≠ some 0 :=
      h0 a (List.mem_filter.mp (mem_sortPlayers hamem2)).1
    have hb0 : b.answerTime ≠ some 0 :=
      h0 b (List.mem_filter.mp (mem_sortPlayers hbmem2)).1
    exact sortedRel_tsOrd ha0 hb0 hr
  · intro i p hip hans hch hfa
    have hg := scorePass_getElem (currentCorrectAnswer st.game) st.game.timer st.firstAnswers
      (sortedNonHost st) 0 i p hip
    have haw : awardPoints (currentCorrectAnswer st.game) st.game.timer st.firstAnswers
        (0 + ((sortedNonHost st).take i).countP
          (tierQualified (currentCorrectAnswer st.game) st.firstAnswers)) p =
        (if ((sortedNonHost st).take i).countP
            (tierQualified (currentCorrectAnswer st.game) st.firstAnswers) < 5
         then (20, REASON_FIRST5) else (10, REASON_UNCHANGED)) := by
      unfold awardPoints
      rw [if_pos hans, if_pos (And.intro hch hfa), Nat.zero_add]
    rw [haw] at hg
    have hd : decide (p.currentAnswer = some (currentCorrectAnswer st.game)) = true := by
      rw [hans]
      simp
    rw [hd] at hg
    by_cases hc : ((sortedNonHost st).take i).countP
        (tierQualified (currentCorrectAnswer st.game) st.firstAnswers) < 5
    · simp only [if_pos hc] at hg ⊢
      exact ⟨hg.2, hg.1⟩
    · simp only [if_neg hc] at hg ⊢
      exact ⟨hg.2, hg.1⟩

/-- A C2 witness participant: first answer correct, never changed. -/
def mkQualifiedC2 (sid : String) (t : Nat) : Player :=
  { id := sid, name := sid, avatar := none, score := 0, lastScoreChange := 0,
    currentAnswer := some 0, hasChangedAnswer := false, answerTime := some t, isHost := false }

/-- Witness game data for C2: six participants, all qualifying, with
ascending submission timestamps. -/
def wGameC2 : GameData :=
  { state := GameState.QUESTION
    currentQuestionIndex := 0
    questions := QUESTIONS
    players := [mkQualifiedC2 "a" 1, mkQualifiedC2 "b" 2, mkQualifiedC2 "c" 3,
      mkQualifiedC2 "d" 4, mkQualifiedC2 "e" 5, mkQualifiedC2 "f" 6]
    timer := 0 }

/-- Witness state for C2: each participant's scratch first answer is
the correct option 0. -/
def wStateC2 : ServerState :=
  { game := wGameC2
    firstAnswers := [("a", 0), ("b", 0), ("c", 0), ("d", 0), ("e", 0), ("f", 0)]
    activeTimer := none }

theorem first_five_tier_witness :
    (scoringOutput wStateC2).2[0]? =
      some (ServerEvent.answerFeedback "a" true 20 REASON_FIRST5) ∧
    (scoringOutput wStateC2).2[5]? =
      some (ServerEvent.answerFeedback "f" true 10 REASON_UNCHANGED) := by
  have h := first_five_tier_award wStateC2 (by decide)
  constructor
  · have h1 := (h.2 0 (mkQualifiedC2 "a" 1) (by decide) (by decide) (by decide) (by decide)).1
    exact h1.trans (by decide)
  · have h2 := (h.2 5 (mkQualifiedC2 "f" 6) (by decide) (by decide) (by decide) (by decide)).1
    exact h2.trans (by decide)

end WeddingQuiz
